import Mathlib

/-!
Verification of the FinTrackPro core: the financial-calculation engine
(`utils/calculations.py`) and the CSV-backed record store
(`utils/data_utils.py`, `utils/auth_utils.py`).

Embedding conventions:
* Python floats are embedded as exact rationals (`ℚ`); the numeric claims of
  the specification are stated in exact arithmetic.
* `round(x, 2)` is embedded as `round2` (floor-based round-half-up to two
  decimal places; the tie-breaking rule differs from Python only at exact
  half-cent values, which no claim exercises).
* A CSV table is a `List` of records.  `pandas.read_csv` always yields a
  `RangeIndex 0..n-1`, so a dataframe label coincides with the row position;
  the `expense_index` / `task_index` arguments of the mutation functions are
  therefore embedded as 0-based positions (`ℕ`).  An absent backing file
  behaves exactly like an empty table in every operation, so it is embedded
  as `[]`.
* The `try/except` wrappers of the record store catch only I/O errors, which
  a pure embedding has no counterpart for; the record-store functions return
  the `(success, table)` pair that the Python code produces on a successful
  file round-trip.  In the calculation engine, the only reachable exception
  is Python's `ZeroDivisionError`, which is embedded explicitly via
  `Except String`.
* `datetime.now()` and the SHA-256 password digest are impure/opaque inputs;
  they are passed in as explicit parameters (`now : String`,
  `hash : String → String`).
-/

/-- Embedding of Python's `round(x, 2)`: round to two decimal places. -/
def round2 (q : ℚ) : ℚ := ((Rat.floor (q * 100 + 1 / 2) : ℤ) : ℚ) / 100

/-- The function `Rat.floor` agrees with the floor of the `FloorRing` instance. -/
lemma rat_floor_eq_floor (q : ℚ) : Rat.floor q = ⌊q⌋ := by
  rw [Rat.floor_def', Rat.floor_def]

/-- The rounding `round2` is the identity on rationals that are exact multiples of `1/100`. -/
lemma round2_eq_self {q : ℚ} {n : ℤ} (h : q * 100 = (n : ℚ)) : round2 q = q := by
  unfold round2
  rw [rat_floor_eq_floor, h]
  have h0 : ⌊((n : ℚ) + 1 / 2)⌋ = n := by
    rw [add_comm, Int.floor_add_int]
    norm_num [Int.floor_eq_zero_iff, Set.mem_Ico]
  rw [h0]
  field_simp
  linarith [h]

/-- The rounding `round2` is monotone. -/
lemma round2_mono {a b : ℚ} (h : a ≤ b) : round2 a ≤ round2 b := by
  unfold round2
  rw [rat_floor_eq_floor, rat_floor_eq_floor]
  have hf : ⌊a * 100 + 1 / 2⌋ ≤ ⌊b * 100 + 1 / 2⌋ :=
    Int.floor_le_floor (by linarith)
  have hf' : ((⌊a * 100 + 1 / 2⌋ : ℤ) : ℚ) ≤ ((⌊b * 100 + 1 / 2⌋ : ℤ) : ℚ) := by
    exact_mod_cast hf
  linarith

/-! ## Calculation engine (`utils/calculations.py`) -/

/-- Embedding of `calculate_emi(principal, annual_rate, tenure_years)` from
`utils/calculations.py` lines 4-37.  A `ZeroDivisionError` (re-raised as
`ValueError`) is modelled as `Except.error`; it occurs when `total_months = 0`
in the zero-rate branch, or when `(1+m)^n - 1 = 0` in the general branch. -/
def calculate_emi (principal annual_rate : ℚ) (tenure_years : ℕ) :
    Except String (ℚ × ℚ × ℚ) :=
  let monthly_rate := annual_rate / (12 * 100)
  let total_months : ℕ := tenure_years * 12
  let emiE : Except String ℚ :=
    if monthly_rate = 0 then
      if total_months = 0 then Except.error "Error calculating EMI: division by zero"
      else Except.ok (principal / (total_months : ℚ))
    else
      let denom := (1 + monthly_rate) ^ total_months - 1
      if denom = 0 then Except.error "Error calculating EMI: division by zero"
      else Except.ok (principal * monthly_rate * (1 + monthly_rate) ^ total_months / denom)
  emiE.map fun emi =>
    let total_payment := emi * (total_months : ℚ)
    (round2 emi, round2 total_payment, round2 (total_payment - principal))

/-- The per-month loop of `calculate_compound_interest`: each iteration first
applies the monthly growth factor to the running amount and then adds the
monthly contribution, while accumulating the invested total. -/
def ciLoop (monthly_rate monthly_contribution : ℚ) : ℕ → ℚ × ℚ → ℚ × ℚ
  | 0, s => s
  | n + 1, s =>
      ciLoop monthly_rate monthly_contribution n
        (s.1 * (1 + monthly_rate) + monthly_contribution, s.2 + monthly_contribution)

/-- Embedding of `calculate_compound_interest(principal, monthly_contribution, annual_return,
years)` from `utils/calculations.py` lines 39-76.  The body is pure arithmetic,
so the `try/except` wrapper never fires. -/
def calculate_compound_interest (principal monthly_contribution annual_return : ℚ)
    (years : ℕ) : ℚ × ℚ × ℚ :=
  let monthly_rate := annual_return / (12 * 100)
  let total_months : ℕ := years * 12
  let s := ciLoop monthly_rate monthly_contribution total_months (principal, principal)
  (round2 s.1, round2 s.2, round2 (s.1 - s.2))

/-- The specification's own description of the compound-growth computation
(spec §4.2/§8): iterate `12·years` months, each month multiplying the balance
by `(1 + annualReturn/1200)` and then adding the contribution.  Stated from
the spec's words, for comparison with `calculate_compound_interest`. -/
def spec_monthly_simulation (principal contribution annual_return : ℚ) (years : ℕ) : ℚ :=
  (List.range (12 * years)).foldl
    (fun amount _ => amount * (1 + annual_return / 1200) + contribution) principal

/-- Result record of `calculate_tax`. -/
structure TaxResult where
  annual_income : ℚ
  total_deductions : ℚ
  taxable_income : ℚ
  federal_tax : ℚ
  after_tax_income : ℚ
  effective_rate : ℚ
  deriving DecidableEq, Repr

/-- The 2023 bracket table of `calculate_tax` (`utils/calculations.py`
lines 120-128).  `float('inf')` is embedded as `none`. -/
def tax_brackets : List (Option ℚ × ℚ) :=
  [(some 10275, 10 / 100), (some 41775, 12 / 100), (some 89450, 22 / 100),
   (some 190750, 24 / 100), (some 364200, 32 / 100), (some 462550, 35 / 100),
   (none, 37 / 100)]

/-- The bracket-allocation loop of `calculate_tax` (lines 137-151): walks the
bracket list keeping `previous_limit` and `remaining_income`, breaking as soon
as no income remains; returns the accumulated federal tax.  For the infinite
bracket, `min(remaining, inf - previous) = remaining` and the stored
`previous_limit = inf` is never read again (the following iteration breaks),
so the recursive call keeps the previous value. -/
def taxLoop : List (Option ℚ × ℚ) → ℚ → ℚ → ℚ
  | [], _, _ => 0
  | (limit, rate) :: rest, previous_limit, remaining_income =>
      if remaining_income ≤ 0 then 0
      else
        let taxable_at_bracket :=
          match limit with
          | some l => min remaining_income (l - previous_limit)
          | none => remaining_income
        taxable_at_bracket * rate +
          taxLoop rest
            (match limit with | some l => l | none => previous_limit)
            (remaining_income - taxable_at_bracket)

/-- Embedding of `calculate_tax(annual_income, filing_status, standard_deduction,
other_deductions)` from `utils/calculations.py` lines 99-169. -/
def calculate_tax (annual_income : ℚ) (filing_status : String)
    (standard_deduction other_deductions : ℚ) : TaxResult :=
  let total_deductions := standard_deduction + other_deductions
  let taxable_income := max 0 (annual_income - total_deductions)
  let brackets :=
    if filing_status = "Married Filing Jointly" then
      tax_brackets.map (fun p => (p.1.map (· * 2), p.2))
    else tax_brackets
  let federal_tax := taxLoop brackets 0 taxable_income
  let after_tax_income := annual_income - federal_tax
  let effective_rate := if annual_income > 0 then federal_tax / annual_income * 100 else 0
  { annual_income := round2 annual_income
    total_deductions := round2 total_deductions
    taxable_income := round2 taxable_income
    federal_tax := round2 federal_tax
    after_tax_income := round2 after_tax_income
    effective_rate := round2 effective_rate }

/-! ### Auxiliary bracket algebra, for relating the two filing statuses -/

/-- The finite part of the Single-filer schedule, as (upper limit, rate)
pairs. -/
def singleFiniteBrackets : List (ℚ × ℚ) :=
  [(10275, 10 / 100), (41775, 12 / 100), (89450, 22 / 100), (190750, 24 / 100),
   (364200, 32 / 100), (462550, 35 / 100)]

/-- The finite part of the doubled (Married Filing Jointly) schedule. -/
def mfjFiniteBrackets : List (ℚ × ℚ) :=
  [(20550, 10 / 100), (83550, 12 / 100), (178900, 22 / 100), (381500, 24 / 100),
   (728400, 32 / 100), (925100, 35 / 100)]

/-- Sequential bracket allocation over (width, rate) pairs, with a final rate
for the unbounded top bracket: each bracket absorbs `min t width` of the
remaining income. -/
def talloc : List (ℚ × ℚ) → ℚ → ℚ → ℚ
  | [], top_rate, t => top_rate * t
  | (w, r) :: ws, top_rate, t => r * min t w + talloc ws top_rate (t - min t w)

/-- Turn a list of (upper limit, rate) pairs into (width, rate) pairs,
starting from the running lower bound `prev`. -/
def widthsOf : ℚ → List (ℚ × ℚ) → List (ℚ × ℚ)
  | _, [] => []
  | prev, (l, r) :: fs => (l - prev, r) :: widthsOf l fs

/-- The limits are nondecreasing starting from `prev`. -/
def chainIncr : ℚ → List (ℚ × ℚ) → Prop
  | _, [] => True
  | prev, (l, _) :: fs => prev ≤ l ∧ chainIncr l fs

/-- All widths are nonnegative. -/
def wnonneg : List (ℚ × ℚ) → Prop
  | [] => True
  | (w, _) :: ws => 0 ≤ w ∧ wnonneg ws

/-- The rate `r0` bounds every rate of the list and the top rate from below. -/
def ratesLB (r0 : ℚ) : List (ℚ × ℚ) → ℚ → Prop
  | [], top => r0 ≤ top
  | (_, r) :: ws, top => r0 ≤ r ∧ ratesLB r0 ws top

/-- The rates are nondecreasing along the list and bounded by the top rate. -/
def ratesMono : List (ℚ × ℚ) → ℚ → Prop
  | [], _ => True
  | (_, r) :: ws, top => ratesLB r ws top ∧ ratesMono ws top

/-! ## Record store (`utils/data_utils.py`) -/

/-- A row of `data/expenses.csv` (schema from `initialize_data_files`). -/
structure Expense where
  expense_id : ℤ
  user_id : ℤ
  date : String
  amount : ℚ
  category : String
  description : String
  payment_method : String
  notes : String
  created_at : String
  deriving DecidableEq, Repr

/-- The caller-supplied expense fields; `save_expense` adds `expense_id`. -/
structure ExpenseData where
  user_id : ℤ
  date : String
  amount : ℚ
  category : String
  description : String
  payment_method : String
  notes : String
  created_at : String
  deriving DecidableEq, Repr

/-- Embedding of `save_expense(expense_data)` from `utils/data_utils.py` lines 39-66:
loads the table (absent file = empty), assigns
`expense_id = len(expenses_df) + 1`, appends the row and rewrites the file. -/
def save_expense (expense_data : ExpenseData) (expenses : List Expense) :
    Bool × List Expense :=
  let expense_id : ℤ := (expenses.length : ℤ) + 1
  (true, expenses ++ [{
    expense_id := expense_id
    user_id := expense_data.user_id
    date := expense_data.date
    amount := expense_data.amount
    category := expense_data.category
    description := expense_data.description
    payment_method := expense_data.payment_method
    notes := expense_data.notes
    created_at := expense_data.created_at }])

/-- Embedding of `load_expenses_data(user_id)` from `utils/data_utils.py` lines 68-92:
filter the full table by `user_id`, then sort by `date` descending (dates are
stored as strings, so pandas compares them lexicographically; pandas' default
quicksort fixes no order among equal dates, so a concrete descending sort
stands in for it — the properties proved below only use membership, which is
sort-independent). -/
def load_expenses_data (user_id : ℤ) (expenses : List Expense) : List Expense :=
  (expenses.filter (fun e => e.user_id == user_id)).insertionSort
    (fun a b => b.date ≤ a.date)

/-- Embedding of `delete_expense(expense_index, user_id)` from `utils/data_utils.py`
lines 94-120.  `pandas.read_csv` yields a `RangeIndex`, so
`expense_index in expenses_df.index` is `expense_index < len(expenses_df)`
and `drop(expense_index)` removes the row at that position. -/
def delete_expense (expense_index : ℕ) (user_id : ℤ) (expenses : List Expense) :
    Bool × List Expense :=
  if expenses = [] then (false, expenses)
  else if h : expense_index < expenses.length then
    let expense := expenses.get ⟨expense_index, h⟩
    if expense.user_id = user_id then (true, expenses.eraseIdx expense_index)
    else (false, expenses)
  else (false, expenses)

/-- A row of `data/backlog.csv` (schema from `initialize_data_files`). -/
structure BacklogTask where
  task_id : ℤ
  user_id : ℤ
  title : String
  description : String
  category : String
  priority : String
  status : String
  due_date : String
  estimated_amount : ℚ
  notes : String
  created_at : String
  updated_at : String
  deriving DecidableEq, Repr

/-- The caller-supplied task fields; `save_backlog_item` adds `task_id`. -/
structure TaskData where
  user_id : ℤ
  title : String
  description : String
  category : String
  priority : String
  status : String
  due_date : String
  estimated_amount : ℚ
  notes : String
  created_at : String
  updated_at : String
  deriving DecidableEq, Repr

/-- Embedding of `save_backlog_item(task_data)` from `utils/data_utils.py` lines 122-149:
assigns `task_id = len(backlog_df) + 1` and appends. -/
def save_backlog_item (task_data : TaskData) (backlog : List BacklogTask) :
    Bool × List BacklogTask :=
  let task_id : ℤ := (backlog.length : ℤ) + 1
  (true, backlog ++ [{
    task_id := task_id
    user_id := task_data.user_id
    title := task_data.title
    description := task_data.description
    category := task_data.category
    priority := task_data.priority
    status := task_data.status
    due_date := task_data.due_date
    estimated_amount := task_data.estimated_amount
    notes := task_data.notes
    created_at := task_data.created_at
    updated_at := task_data.updated_at }])

/-- Embedding of `load_backlog_data(user_id)` from `utils/data_utils.py` lines 151-175:
filter by `user_id`, sort by `created_at` descending. -/
def load_backlog_data (user_id : ℤ) (backlog : List BacklogTask) : List BacklogTask :=
  (backlog.filter (fun t => t.user_id == user_id)).insertionSort
    (fun a b => b.created_at ≤ a.created_at)

/-- Embedding of `update_backlog_status(task_index, user_id, new_status)` from
`utils/data_utils.py` lines 177-203: after the ownership check it sets the
`status` cell to `new_status` and the `updated_at` cell to the current time
(passed in here as `now`). -/
def update_backlog_status (task_index : ℕ) (user_id : ℤ) (new_status : String)
    (now : String) (backlog : List BacklogTask) : Bool × List BacklogTask :=
  if backlog = [] then (false, backlog)
  else if h : task_index < backlog.length then
    let task := backlog.get ⟨task_index, h⟩
    if task.user_id = user_id then
      (true, backlog.set task_index { task with status := new_status, updated_at := now })
    else (false, backlog)
  else (false, backlog)

/-- Embedding of `delete_backlog_item(task_index, user_id)` from `utils/data_utils.py`
lines 205-231: same ownership check as `delete_expense`, removes the row. -/
def delete_backlog_item (task_index : ℕ) (user_id : ℤ) (backlog : List BacklogTask) :
    Bool × List BacklogTask :=
  if backlog = [] then (false, backlog)
  else if h : task_index < backlog.length then
    let task := backlog.get ⟨task_index, h⟩
    if task.user_id = user_id then (true, backlog.eraseIdx task_index)
    else (false, backlog)
  else (false, backlog)

/-! ## User registration and login (`utils/auth_utils.py`) -/

/-- A row of `data/users.csv`. -/
structure User where
  user_id : ℤ
  username : String
  email : String
  password_hash : String
  full_name : String
  created_at : String
  last_login : Option String
  is_active : Bool
  deriving DecidableEq, Repr

/-- The registration form data consumed by `register_user`. -/
structure UserData where
  username : String
  email : String
  password : String
  full_name : String
  deriving DecidableEq, Repr

/-- Embedding of `register_user(user_data)` from `utils/auth_utils.py` lines 24-81:
rejects a username or email that case-insensitively collides with an existing
row (username checked first); otherwise assigns
`user_id = existing_users['user_id'].max() + 1` (or `1` for an empty/absent
table) and appends the new row.  Returns
`(success, registration_error, table)`; `hash` stands for the SHA-256 digest
and `now` for `datetime.now()`. -/
def register_user (hash : String → String) (user_data : UserData) (now : String)
    (users : List User) : Bool × Option String × List User :=
  if users.any (fun u => u.username.toLower == user_data.username.toLower) then
    (false, some "Username already exists", users)
  else if users.any (fun u => u.email.toLower == user_data.email.toLower) then
    (false, some "Email already exists", users)
  else
    let user_id : ℤ :=
      match users with
      | [] => 1
      | u :: rest => rest.foldl (fun m v => max m v.user_id) u.user_id + 1
    (true, none, users ++ [{
      user_id := user_id
      username := user_data.username.trim
      email := user_data.email.trim.toLower
      password_hash := hash user_data.password
      full_name := user_data.full_name.trim
      created_at := now
      last_login := none
      is_active := true }])

/-- Embedding of `authenticate_user(username, password)` from `utils/auth_utils.py`
lines 83-124: selects rows whose `username` equals the argument exactly
(case-sensitively); on a password-hash match it stamps `last_login` on every
matching row and returns the matched row as read (its fields were copied
before the stamp).  Returns `(found user, table)`. -/
def authenticate_user (hash : String → String) (username password now : String)
    (users : List User) : Option User × List User :=
  match users.filter (fun u => u.username == username) with
  | [] => (none, users)
  | user :: _ =>
    if user.password_hash == hash password then
      (some user,
       users.map (fun u =>
         if u.username == username then { u with last_login := some now } else u))
    else (none, users)

/-- An expense-table operation, for stating reachability properties of the
expense collection. -/
inductive ExpenseOp where
  | save (d : ExpenseData)
  | erase (expense_index : ℕ) (user_id : ℤ)
  deriving Repr

/-- Run one `ExpenseOp` against a table (the persisted-table component of the
corresponding record-store call). -/
def applyExpenseOp (tbl : List Expense) : ExpenseOp → List Expense
  | .save d => (save_expense d tbl).2
  | .erase i uid => (delete_expense i uid tbl).2

/-- Run a sequence of expense operations starting from the empty (absent)
table. -/
def applyExpenseOps (ops : List ExpenseOp) : List Expense :=
  ops.foldl applyExpenseOp []

/-! ## Concrete sample records used in counterexamples and witnesses -/

/-- A concrete expense row (id 1, owned by user 7). -/
def sampleExpense : Expense :=
  { expense_id := 1, user_id := 7, date := "2024-01-02", amount := 10,
    category := "Food", description := "lunch", payment_method := "Cash",
    notes := "", created_at := "t1" }

/-- A second concrete expense row (id 2, owned by user 7). -/
def sampleExpense2 : Expense :=
  { expense_id := 2, user_id := 7, date := "2024-01-01", amount := 20,
    category := "Travel", description := "bus", payment_method := "Card",
    notes := "", created_at := "t2" }

/-- Concrete expense form data for user 7. -/
def sampleExpenseData : ExpenseData :=
  { user_id := 7, date := "2024-01-02", amount := 10, category := "Food",
    description := "lunch", payment_method := "Cash", notes := "",
    created_at := "t1" }

/-- A concrete backlog row (id 1, owned by user 7). -/
def sampleTask : BacklogTask :=
  { task_id := 1, user_id := 7, title := "pay rent", description := "monthly",
    category := "Bills", priority := "High", status := "Pending",
    due_date := "2024-02-01", estimated_amount := 0, notes := "",
    created_at := "2024-01-01", updated_at := "2024-01-01" }

/-- A concrete user row with `user_id = 5` and username `alice`. -/
def sampleUser : User :=
  { user_id := 5, username := "alice", email := "alice@example.com",
    password_hash := "h", full_name := "", created_at := "t0",
    last_login := none, is_active := true }

/-- Concrete registration data for a second user `bob`. -/
def bobData : UserData :=
  { username := "bob", email := "bob@example.com", password := "pw",
    full_name := "" }

/-! ## Helper lemmas -/

/-- Evaluation form of `String.toLower` (used to compute it on literals). -/
lemma toLower_eval (s : String) : s.toLower = String.mk (s.data.map Char.toLower) := by
  rw [String.toLower, String.map_eq]

/-- Folding a constant-step function over `List.range` is function iteration. -/
lemma foldl_range_const {α : Type} (g : α → α) (a : α) (n : ℕ) :
    (List.range n).foldl (fun x _ => g x) a = g^[n] a := by
  induction n with
  | zero => simp
  | succ k ih =>
      rw [List.range_succ, List.foldl_append, ih, List.foldl_cons, List.foldl_nil,
        Function.iterate_succ_apply']

/-- Closed form of the compound-interest loop: the amount is an iterate of the
monthly step and the invested total grows by the contribution each month. -/
lemma ciLoop_spec (m c : ℚ) (n : ℕ) (a i : ℚ) :
    ciLoop m c n (a, i) = ((fun x => x * (1 + m) + c)^[n] a, i + (n : ℚ) * c) := by
  induction n generalizing a i with
  | zero => simp [ciLoop]
  | succ k ih =>
      rw [ciLoop]
      simp only [ih]
      refine Prod.ext ?_ ?_
      · simp [Function.iterate_succ_apply]
      · push_cast
        ring

/-- The seed of a running maximum is a lower bound of its result. -/
lemma le_user_foldl_max (l : List User) (a : ℤ) :
    a ≤ l.foldl (fun m v => max m v.user_id) a := by
  induction l generalizing a with
  | nil => exact le_refl a
  | cons x xs ih => exact le_trans (le_max_left a x.user_id) (ih (max a x.user_id))

/-- Every member's id is bounded by the running maximum of ids. -/
lemma mem_le_user_foldl_max (l : List User) (a : ℤ) (v : User) (hv : v ∈ l) :
    v.user_id ≤ l.foldl (fun m u => max m u.user_id) a := by
  induction l generalizing a with
  | nil => cases hv
  | cons x xs ih =>
      rcases List.mem_cons.1 hv with h | h
      · subst h
        exact le_trans (le_max_right a v.user_id) (le_user_foldl_max xs _)
      · exact ih _ h

/-- The running maximum of ids is attained: it is the seed or some member's
id. -/
lemma user_foldl_max_attained (l : List User) (a : ℤ) :
    l.foldl (fun m u => max m u.user_id) a = a ∨
      ∃ w ∈ l, l.foldl (fun m u => max m u.user_id) a = w.user_id := by
  induction l generalizing a with
  | nil => exact Or.inl rfl
  | cons x xs ih =>
      rcases ih (max a x.user_id) with h | ⟨w, hw, he⟩
      · rcases max_choice a x.user_id with hm | hm
        · exact Or.inl (by rw [List.foldl_cons, h, hm])
        · exact Or.inr ⟨x, List.mem_cons_self x xs, by rw [List.foldl_cons, h, hm]⟩
      · exact Or.inr ⟨w, List.mem_cons_of_mem _ hw, by rw [List.foldl_cons, he]⟩

/-- A member of `l.eraseIdx i` sits in `l` at some position other than `i`. -/
lemma exists_index_of_mem_eraseIdx {α : Type} (l : List α) (i : ℕ) (a : α)
    (ha : a ∈ l.eraseIdx i) :
    ∃ j : ℕ, ∃ hj : j < l.length, j ≠ i ∧ l.get ⟨j, hj⟩ = a := by
  induction l generalizing i with
  | nil => simp [List.eraseIdx] at ha
  | cons x xs ih =>
      cases i with
      | zero =>
          simp only [List.eraseIdx] at ha
          obtain ⟨⟨j, hj⟩, rfl⟩ := List.mem_iff_get.1 ha
          exact ⟨j + 1, Nat.succ_lt_succ hj, Nat.succ_ne_zero j, rfl⟩
      | succ i' =>
          simp only [List.eraseIdx] at ha
          rcases List.mem_cons.1 ha with rfl | hmem
          · exact ⟨0, Nat.succ_pos _, (Nat.succ_ne_zero i').symm, rfl⟩
          · obtain ⟨j, hj, hne, hget⟩ := ih i' hmem
            exact ⟨j + 1, Nat.succ_lt_succ hj, by omega, by simpa using hget⟩

/-- Nondecreasing limits yield nonnegative widths. -/
lemma wnonneg_widthsOf (prev : ℚ) (fs : List (ℚ × ℚ)) (h : chainIncr prev fs) :
    wnonneg (widthsOf prev fs) := by
  induction fs generalizing prev with
  | nil => trivial
  | cons p fs ih =>
      obtain ⟨l, r⟩ := p
      obtain ⟨hpl, hch⟩ := h
      exact ⟨sub_nonneg.2 hpl, ih l hch⟩

/-- Allocating zero income yields zero tax (for nonnegative widths). -/
lemma talloc_zero (ws : List (ℚ × ℚ)) (top : ℚ) (hw : wnonneg ws) :
    talloc ws top 0 = 0 := by
  induction ws with
  | nil => simp [talloc]
  | cons p ws ih =>
      obtain ⟨w, r⟩ := p
      obtain ⟨hw1, hw2⟩ := hw
      simp only [talloc, min_eq_left hw1, mul_zero, sub_zero, zero_add, ih hw2]

/-- The source's bracket loop agrees with the width-based allocation: a
schedule made of finite limits followed by the infinite bracket computes
`talloc` of the corresponding widths. -/
lemma taxLoop_eq_talloc (fs : List (ℚ × ℚ)) (top : ℚ) :
    ∀ (prev rem : ℚ), 0 ≤ rem → chainIncr prev fs →
      taxLoop (fs.map (fun p => (some p.1, p.2)) ++ [(none, top)]) prev rem =
        talloc (widthsOf prev fs) top rem := by
  induction fs with
  | nil =>
      intro prev rem hrem hchain
      simp only [List.map_nil, List.nil_append, taxLoop, widthsOf, talloc]
      rcases eq_or_lt_of_le hrem with h | h
      · rw [if_pos (by rw [← h]), ← h, mul_zero]
      · rw [if_neg (not_le.2 h)]
        ring
  | cons p fs ih =>
      intro prev rem hrem hchain
      obtain ⟨l, r⟩ := p
      obtain ⟨hpl, hchain'⟩ := hchain
      simp only [List.map_cons, List.cons_append, List.append_eq, taxLoop,
        widthsOf, talloc]
      rcases eq_or_lt_of_le hrem with h | h
      · rw [if_pos (by rw [← h]), ← h, min_eq_left (sub_nonneg.2 hpl)]
        norm_num [talloc_zero _ _ (wnonneg_widthsOf l fs hchain')]
      · rw [if_neg (not_le.2 h)]
        have hminle : min rem (l - prev) ≤ rem := min_le_left _ _
        rw [ih l (rem - min rem (l - prev)) (by linarith) hchain']
        ring

/-- Doubling every width scales the allocation: the doubled schedule taxes
`t` exactly as twice the original schedule taxes `t / 2`. -/
lemma talloc_double (ws : List (ℚ × ℚ)) (top : ℚ) :
    ∀ t : ℚ, talloc (ws.map (fun p => (2 * p.1, p.2))) top t =
      2 * talloc ws top (t / 2) := by
  induction ws with
  | nil =>
      intro t
      simp only [List.map_nil, talloc]
      ring
  | cons p ws ih =>
      intro t
      obtain ⟨w, r⟩ := p
      simp only [List.map_cons, talloc]
      have hmin : min t (2 * w) = 2 * min (t / 2) w := by
        rcases le_total t (2 * w) with h | h
        · rw [min_eq_left h, min_eq_left (by linarith)]
          ring
        · rw [min_eq_right h, min_eq_right (by linarith)]
      rw [hmin, ih]
      have harg : (t - 2 * min (t / 2) w) / 2 = t / 2 - min (t / 2) w := by ring
      rw [harg]
      ring

/-- Lipschitz-from-below bound: when `r0` bounds every rate from below, the
allocation grows by at least `r0` per unit of extra income. -/
lemma talloc_lipschitz (ws : List (ℚ × ℚ)) (top r0 : ℚ) :
    ∀ (s s' : ℚ), 0 ≤ s' → s' ≤ s → wnonneg ws → ratesLB r0 ws top →
      talloc ws top s' + r0 * (s - s') ≤ talloc ws top s := by
  induction ws with
  | nil =>
      intro s s' h0 hss hw hlb
      simp only [talloc]
      simp only [ratesLB] at hlb
      nlinarith [mul_le_mul_of_nonneg_right hlb (sub_nonneg.2 hss)]
  | cons p ws ih =>
      intro s s' h0 hss hw hlb
      obtain ⟨w, r⟩ := p
      obtain ⟨hw1, hw2⟩ := hw
      obtain ⟨hr, hlb'⟩ := hlb
      simp only [talloc]
      have hminle : min s' w ≤ min s w := min_le_min hss (le_refl w)
      have hs'sub : 0 ≤ s' - min s' w := by
        rcases le_total s' w with h | h
        · rw [min_eq_left h]
          linarith
        · rw [min_eq_right h]
          linarith
      have hsubmono : s' - min s' w ≤ s - min s w := by
        rcases le_total s' w with h1 | h1 <;> rcases le_total s w with h2 | h2
        · rw [min_eq_left h1, min_eq_left h2]
          linarith
        · rw [min_eq_left h1, min_eq_right h2]
          linarith
        · rw [min_eq_right h1, min_eq_left h2]
          linarith
        · rw [min_eq_right h1, min_eq_right h2]
          linarith
      have key := ih (s - min s w) (s' - min s' w) hs'sub hsubmono hw2 hlb'
      have hprod : r0 * (min s w - min s' w) ≤ r * (min s w - min s' w) :=
        mul_le_mul_of_nonneg_right hr (by linarith)
      nlinarith [key, hprod]

/-- Superadditivity at the midpoint: with nondecreasing rates, taxing `t`
yields at least twice the tax on `t / 2`. -/
lemma talloc_superadd (ws : List (ℚ × ℚ)) (top : ℚ) :
    ∀ t : ℚ, 0 ≤ t → wnonneg ws → ratesMono ws top →
      2 * talloc ws top (t / 2) ≤ talloc ws top t := by
  induction ws with
  | nil =>
      intro t ht hw hm
      simp only [talloc]
      exact le_of_eq (by ring)
  | cons p ws ih =>
      intro t ht hw hm
      obtain ⟨w, r⟩ := p
      obtain ⟨hw1, hw2⟩ := hw
      obtain ⟨hlb, hm2⟩ := hm
      simp only [talloc]
      rcases le_total t w with htw | htw
      · have hu : t / 2 ≤ w := by linarith
        rw [min_eq_left htw, min_eq_left hu,
          show t / 2 - t / 2 = 0 by ring, show t - t = 0 by ring,
          talloc_zero ws top hw2]
        exact le_of_eq (by ring)
      · rcases le_total (t / 2) w with huw | huw
        · rw [min_eq_right htw, min_eq_left huw,
            show t / 2 - t / 2 = 0 by ring, talloc_zero ws top hw2]
          have hB := talloc_lipschitz ws top r (t - w) 0 (le_refl 0)
            (by linarith) hw2 hlb
          rw [talloc_zero ws top hw2] at hB
          linarith [hB]
        · rw [min_eq_right htw, min_eq_right huw]
          have hIH := ih (t - w) (by linarith) hw2 hm2
          have hL := talloc_lipschitz ws top r ((t - w) / 2) (t / 2 - w)
            (by linarith) (by linarith) hw2 hlb
          rw [show (t - w) / 2 - (t / 2 - w) = w / 2 by ring] at hL
          linarith [hIH, hL]

/-! ## Claims -/

/-- C1 (counterexample): user registration does not assign
`id = currentRowCount + 1`.  On a users table holding one row with
`user_id = 5`, registering a fresh user assigns `user_id = 6`, while the
row-count rule would assign `2`. -/
theorem C1_counterexample :
    ((register_user (fun s => s) bobData "t2" [sampleUser]).2.2.map
        (fun u => u.user_id)) = [5, 6] ∧
    (([sampleUser] : List User).length : ℤ) + 1 = 2 ∧ (6 : ℤ) ≠ 2 := by
  simp only [register_user, toLower_eval]
  decide

/-- C1 (amended): expense and backlog inserts assign
`id = currentRowCount + 1` (an absent table counting as zero rows), but user
registration assigns `user_id = max(existing user_id) + 1` — `1` on an
empty/absent table, and otherwise an id strictly greater than every existing
one. -/
theorem C1_id_assignment :
    (∀ (d : ExpenseData) (tbl : List Expense),
        (save_expense d tbl).2.map (fun e => e.expense_id) =
          tbl.map (fun e => e.expense_id) ++ [(tbl.length : ℤ) + 1]) ∧
    (∀ (d : TaskData) (tbl : List BacklogTask),
        (save_backlog_item d tbl).2.map (fun t => t.task_id) =
          tbl.map (fun t => t.task_id) ++ [(tbl.length : ℤ) + 1]) ∧
    (∀ (hash : String → String) (d : UserData) (now : String) (tbl : List User),
        (register_user hash d now tbl).1 = true →
        ∃ u : User, (register_user hash d now tbl).2.2 = tbl ++ [u] ∧
          (tbl = [] → u.user_id = 1) ∧
          (∀ v ∈ tbl, v.user_id < u.user_id) ∧
          (tbl ≠ [] → ∃ w ∈ tbl, u.user_id = w.user_id + 1)) := by
  refine ⟨fun d tbl => by simp [save_expense], fun d tbl => by simp [save_backlog_item], ?_⟩
  intro hash d now tbl hsucc
  by_cases h1 : tbl.any (fun u => u.username.toLower == d.username.toLower)
  · simp [register_user, h1] at hsucc
  · by_cases h2 : tbl.any (fun u => u.email.toLower == d.email.toLower)
    · simp [register_user, h1, h2] at hsucc
    · simp only [register_user, h1, h2, Bool.false_eq_true, if_false]
      refine ⟨_, rfl, ?_, ?_, ?_⟩
      · intro h
        subst h
        rfl
      · intro v hv
        cases tbl with
        | nil => cases hv
        | cons u0 rest =>
            have hle : v.user_id ≤ rest.foldl (fun m u => max m u.user_id) u0.user_id := by
              rcases List.mem_cons.1 hv with h | h
              · subst h
                exact le_user_foldl_max rest _
              · exact mem_le_user_foldl_max rest _ v h
            simpa using lt_of_le_of_lt hle (lt_add_one _)
      · intro hne
        cases tbl with
        | nil => exact absurd rfl hne
        | cons u0 rest =>
            rcases user_foldl_max_attained rest u0.user_id with h | ⟨w, hw, he⟩
            · exact ⟨u0, List.mem_cons_self _ _, by simp [h]⟩
            · exact ⟨w, List.mem_cons_of_mem _ hw, by simp [he]⟩

/-- C1 (witness): on a one-row users table with ids `[5]`, a successful
registration appends a user whose id exceeds every existing id. -/
theorem C1_id_assignment_witness :
    ∃ u : User,
      (register_user (fun s => s) bobData "t2" [sampleUser]).2.2 = [sampleUser] ++ [u] ∧
      (([sampleUser] : List User) = [] → u.user_id = 1) ∧
      (∀ v ∈ [sampleUser], v.user_id < u.user_id) ∧
      (([sampleUser] : List User) ≠ [] → ∃ w ∈ [sampleUser], u.user_id = w.user_id + 1) :=
  C1_id_assignment.2.2 (fun s => s) bobData "t2" [sampleUser]
    (by simp only [register_user, toLower_eval]; decide)

/-- C2: starting from the empty expense table, the sequence
insert, insert, delete row 0, insert produces a table whose `expense_id`
column contains a duplicate — id uniqueness is not an invariant. -/
theorem C2_duplicate_ids_reachable :
    ∃ ops : List ExpenseOp,
      ¬ ((applyExpenseOps ops).map (fun e => e.expense_id)).Nodup :=
  ⟨[ExpenseOp.save sampleExpenseData, ExpenseOp.save sampleExpenseData,
    ExpenseOp.erase 0 7, ExpenseOp.save sampleExpenseData], by decide⟩

/-- C3: `calculate_tax` computes `taxableIncome = max(0, income − deductions)`
for every input, and on income 40000, Single, standard deduction 12950,
other deductions 0 it yields taxable income 27050 and federal tax
`10275·0.10 + (27050−10275)·0.12`. -/
theorem C3_progressive_tax :
    (∀ (inc : ℚ) (st : String) (sd od : ℚ),
        (calculate_tax inc st sd od).taxable_income =
          round2 (max 0 (inc - (sd + od)))) ∧
    (calculate_tax 40000 "Single" 12950 0).taxable_income = 27050 ∧
    (calculate_tax 40000 "Single" 12950 0).federal_tax =
      10275 * (10 / 100) + (27050 - 10275) * (12 / 100) := by
  refine ⟨fun inc st sd od => rfl, ?_, ?_⟩
  · have h : max (0 : ℚ) (40000 - (12950 + 0)) = 27050 := by norm_num
    simp only [calculate_tax, h]
    rw [round2_eq_self (n := 2705000) (by norm_num)]
  · have h : max (0 : ℚ) (40000 - (12950 + 0)) = 27050 := by norm_num
    have hloop : taxLoop tax_brackets 0 27050 = 3040.5 := by
      norm_num [taxLoop, tax_brackets, min_def]
    have hr : round2 (3040.5 : ℚ) = 3040.5 :=
      round2_eq_self (n := 304050) (by norm_num)
    simp only [calculate_tax, h,
      if_neg (by decide : ¬ ("Single" = "Married Filing Jointly")), hloop, hr]
    norm_num

/-- C4 (counterexample): `calculate_emi` does not reject non-positive inputs:
with principal 0 and annual rate 0 (both non-positive) and tenure 1 year it
returns the numeric result `(0, 0, 0)` instead of raising an error. -/
theorem C4_counterexample : calculate_emi 0 0 1 = Except.ok (0, 0, 0) := by
  simp only [calculate_emi]
  norm_num [Except.map, round2_eq_self (n := 0) (q := 0) (by norm_num)]

/-- C4 (amended): the EMI calculation performs no sign validation — for every
principal (including non-positive ones) and every non-negative rate with a
positive tenure it returns a numeric result; it raises the typed error only
when a division by zero occurs, in particular for every input with tenure 0. -/
theorem C4_emi_no_validation :
    (∀ (P r : ℚ) (t : ℕ), 1 ≤ t → 0 ≤ r →
        ∃ out, calculate_emi P r t = Except.ok out) ∧
    (∀ P r : ℚ, ∃ msg, calculate_emi P r 0 = Except.error msg) := by
  constructor
  · intro P r t ht hr
    simp only [calculate_emi]
    by_cases hm : r / (12 * 100) = 0
    · have hmon : ¬ (t * 12 = 0) := by omega
      rw [if_pos hm, if_neg hmon]
      exact ⟨_, rfl⟩
    · have hmpos : 0 < r / (12 * 100) :=
        lt_of_le_of_ne (by positivity) (Ne.symm hm)
      have hpow : 1 < (1 + r / (12 * 100)) ^ (t * 12) :=
        one_lt_pow₀ (by linarith) (by omega)
      have hden : ¬ ((1 + r / (12 * 100)) ^ (t * 12) - 1 = 0) := by
        intro h0
        linarith [sub_eq_zero.1 h0]
      rw [if_neg hm, if_neg hden]
      exact ⟨_, rfl⟩
  · intro P r
    by_cases hm : r / (12 * 100) = 0
    · refine ⟨"Error calculating EMI: division by zero", ?_⟩
      simp [calculate_emi, hm, Except.map]
    · refine ⟨"Error calculating EMI: division by zero", ?_⟩
      have hden : (1 + r / (12 * 100)) ^ ((0 : ℕ) * 12) - 1 = 0 := by
        norm_num
      simp [calculate_emi, hm, hden, Except.map]

/-- C4 (witness): `calculate_emi` returns a numeric result on a standard loan
(principal 100000, rate 5, 15 years), and errors on tenure 0. -/
theorem C4_emi_no_validation_witness :
    (∃ out, calculate_emi 100000 5 15 = Except.ok out) ∧
    (∃ msg, calculate_emi 100 5 0 = Except.error msg) :=
  ⟨C4_emi_no_validation.1 100000 5 15 (by decide) (by decide),
   C4_emi_no_validation.2 100 5⟩

/-- C5 (counterexample): `delete_expense` is keyed by row position, not by
`expense_id`.  On a one-row table whose single row has `expense_id = 1` and
owner 7, `delete(1, 7)` fails (position 1 does not exist) and the queried
table still contains expense id 1. -/
theorem C5_counterexample :
    delete_expense 1 7 [sampleExpense] = (false, [sampleExpense]) ∧
    [sampleExpense].map (fun e => e.expense_id) = [1] ∧
    [sampleExpense].map (fun e => e.user_id) = [7] ∧
    (load_expenses_data 7 [sampleExpense]).map (fun e => e.expense_id) = [1] := by
  decide

/-- C5 (amended): `delete_expense(i, user_id)` takes a 0-based row position:
whenever row `i` exists and is owned by the caller, the call succeeds and
removes exactly that row; consequently, if no other row shares the deleted
row's `expense_id`, a subsequent query for that user contains no row with
that id. -/
theorem C5_delete_by_index (tbl : List Expense) (i : ℕ) (uid : ℤ)
    (h : i < tbl.length) (hown : (tbl.get ⟨i, h⟩).user_id = uid) :
    delete_expense i uid tbl = (true, tbl.eraseIdx i) ∧
    ((∀ (j : ℕ) (hj : j < tbl.length), j ≠ i →
        (tbl.get ⟨j, hj⟩).expense_id ≠ (tbl.get ⟨i, h⟩).expense_id) →
      ∀ e ∈ load_expenses_data uid (tbl.eraseIdx i),
        e.expense_id ≠ (tbl.get ⟨i, h⟩).expense_id) := by
  constructor
  · rw [delete_expense,
      if_neg (List.ne_nil_of_length_pos (lt_of_le_of_lt (Nat.zero_le i) h)),
      dif_pos h, if_pos hown]
  · intro huniq e he
    have he' : e ∈ (tbl.eraseIdx i).filter (fun e => e.user_id == uid) :=
      (List.perm_insertionSort _ _).mem_iff.1 he
    have he2 : e ∈ tbl.eraseIdx i := (List.mem_filter.1 he').1
    obtain ⟨j, hj, hne, hget⟩ := exists_index_of_mem_eraseIdx tbl i e he2
    intro hcontra
    exact huniq j hj hne (by rw [hget]; exact hcontra)

/-- C5 (witness): deleting row 0 of a concrete two-row table owned by user 7
succeeds, removes exactly that row, and the queried table no longer contains
the deleted expense id. -/
theorem C5_delete_by_index_witness :
    delete_expense 0 7 [sampleExpense, sampleExpense2] =
      (true, ([sampleExpense, sampleExpense2] : List Expense).eraseIdx 0) ∧
    ((∀ (j : ℕ) (hj : j < ([sampleExpense, sampleExpense2] : List Expense).length),
        j ≠ 0 →
        (([sampleExpense, sampleExpense2] : List Expense).get ⟨j, hj⟩).expense_id ≠
          (([sampleExpense, sampleExpense2] : List Expense).get
            ⟨0, by decide⟩).expense_id) →
      ∀ e ∈ load_expenses_data 7
          (([sampleExpense, sampleExpense2] : List Expense).eraseIdx 0),
        e.expense_id ≠
          (([sampleExpense, sampleExpense2] : List Expense).get
            ⟨0, by decide⟩).expense_id) :=
  C5_delete_by_index [sampleExpense, sampleExpense2] 0 7 (by decide) (by decide)

/-- C6: an update or delete whose target row does not exist, or whose
`user_id` differs from the target row's owner, returns `false` and leaves the
stored table unchanged (expenses delete, backlog status update, backlog
delete). -/
theorem C6_ownership_isolation :
    (∀ (tbl : List Expense) (i : ℕ) (uid : ℤ),
        (∀ h : i < tbl.length, (tbl.get ⟨i, h⟩).user_id ≠ uid) →
        delete_expense i uid tbl = (false, tbl)) ∧
    (∀ (tbl : List BacklogTask) (i : ℕ) (uid : ℤ) (v now : String),
        (∀ h : i < tbl.length, (tbl.get ⟨i, h⟩).user_id ≠ uid) →
        update_backlog_status i uid v now tbl = (false, tbl)) ∧
    (∀ (tbl : List BacklogTask) (i : ℕ) (uid : ℤ),
        (∀ h : i < tbl.length, (tbl.get ⟨i, h⟩).user_id ≠ uid) →
        delete_backlog_item i uid tbl = (false, tbl)) := by
  refine ⟨?_, ?_, ?_⟩
  · intro tbl i uid hyp
    by_cases h0 : tbl = []
    · rw [delete_expense, if_pos h0]
    · rw [delete_expense, if_neg h0]
      by_cases h1 : i < tbl.length
      · rw [dif_pos h1, if_neg (hyp h1)]
      · rw [dif_neg h1]
  · intro tbl i uid v now hyp
    by_cases h0 : tbl = []
    · rw [update_backlog_status, if_pos h0]
    · rw [update_backlog_status, if_neg h0]
      by_cases h1 : i < tbl.length
      · rw [dif_pos h1, if_neg (hyp h1)]
      · rw [dif_neg h1]
  · intro tbl i uid hyp
    by_cases h0 : tbl = []
    · rw [delete_backlog_item, if_pos h0]
    · rw [delete_backlog_item, if_neg h0]
      by_cases h1 : i < tbl.length
      · rw [dif_pos h1, if_neg (hyp h1)]
      · rw [dif_neg h1]

/-- C6 (witness): a wrong-owner delete of an existing expense row, a
wrong-owner backlog status update, and an out-of-range backlog delete all
return `false` and leave the table unchanged. -/
theorem C6_ownership_isolation_witness :
    delete_expense 0 9 [sampleExpense] = (false, [sampleExpense]) ∧
    update_backlog_status 0 9 "Completed" "t9" [sampleTask] = (false, [sampleTask]) ∧
    delete_backlog_item 5 7 [sampleTask] = (false, [sampleTask]) :=
  ⟨C6_ownership_isolation.1 [sampleExpense] 0 9 (fun h => by simp [sampleExpense]),
   C6_ownership_isolation.2.1 [sampleTask] 0 9 "Completed" "t9"
     (fun h => by simp [sampleTask]),
   C6_ownership_isolation.2.2 [sampleTask] 5 7 (fun h => absurd h (by decide))⟩

/-- C7: `calculate_compound_interest` equals (after rounding) the per-month
simulation the specification describes — growth applied before the
contribution each month — with `totalInvested = P + 12·years·C` and
`totalReturns = final − invested`; and for `P=0, C=100, r=0, y=1` the final
amount is exactly 1200. -/
theorem C7_compound_growth :
    (∀ (P c r : ℚ) (y : ℕ),
        calculate_compound_interest P c r y =
          (round2 (spec_monthly_simulation P c r y),
           round2 (P + 12 * (y : ℚ) * c),
           round2 (spec_monthly_simulation P c r y - (P + 12 * (y : ℚ) * c)))) ∧
    (calculate_compound_interest 0 100 0 1).1 = 1200 := by
  constructor
  · intro P c r y
    have hfun : (fun x : ℚ => x * (1 + r / 1200) + c) =
        (fun x : ℚ => x * (1 + r / (12 * 100)) + c) := by
      funext x
      norm_num
    have hspec : spec_monthly_simulation P c r y =
        (fun x : ℚ => x * (1 + r / (12 * 100)) + c)^[y * 12] P := by
      rw [spec_monthly_simulation, foldl_range_const, hfun, Nat.mul_comm]
    have hcast : ((y * 12 : ℕ) : ℚ) * c = 12 * (y : ℚ) * c := by
      push_cast
      ring
    simp only [calculate_compound_interest, ciLoop_spec, hspec, hcast]
  · have h : (ciLoop (0 / (12 * 100)) 100 (1 * 12) (0, 0)).1 = 1200 := by
      norm_num [ciLoop]
    simp only [calculate_compound_interest, h]
    rw [round2_eq_self (n := 120000) (by norm_num)]

/-- C8: for every income, standard deduction and other-deductions amount, the
federal tax under "Married Filing Jointly" (all finite bracket bounds
doubled, rates unchanged) is at most the federal tax under "Single". -/
theorem C8_married_le_single (inc sd od : ℚ) :
    (calculate_tax inc "Married Filing Jointly" sd od).federal_tax ≤
      (calculate_tax inc "Single" sd od).federal_tax := by
  have hT : (0 : ℚ) ≤ max 0 (inc - (sd + od)) := le_max_left _ _
  have hMFJlist : tax_brackets.map (fun p => (p.1.map (· * 2), p.2)) =
      mfjFiniteBrackets.map (fun p => (some p.1, p.2)) ++ [(none, 37 / 100)] := by
    norm_num [tax_brackets, mfjFiniteBrackets]
  have hSlist : tax_brackets =
      singleFiniteBrackets.map (fun p => (some p.1, p.2)) ++ [(none, 37 / 100)] := by
    norm_num [tax_brackets, singleFiniteBrackets]
  have hchainM : chainIncr 0 mfjFiniteBrackets := by
    norm_num [chainIncr, mfjFiniteBrackets]
  have hchainS : chainIncr 0 singleFiniteBrackets := by
    norm_num [chainIncr, singleFiniteBrackets]
  have hwidths : widthsOf 0 mfjFiniteBrackets =
      (widthsOf 0 singleFiniteBrackets).map (fun p => (2 * p.1, p.2)) := by
    norm_num [widthsOf, mfjFiniteBrackets, singleFiniteBrackets]
  have hW : wnonneg (widthsOf 0 singleFiniteBrackets) :=
    wnonneg_widthsOf 0 singleFiniteBrackets hchainS
  have hM : ratesMono (widthsOf 0 singleFiniteBrackets) (37 / 100) := by
    norm_num [ratesMono, ratesLB, widthsOf, singleFiniteBrackets]
  have hMFJ : (calculate_tax inc "Married Filing Jointly" sd od).federal_tax =
      round2 (taxLoop (tax_brackets.map (fun p => (p.1.map (· * 2), p.2))) 0
        (max 0 (inc - (sd + od)))) := by
    simp only [calculate_tax, eq_self_iff_true, if_true]
  have hS : (calculate_tax inc "Single" sd od).federal_tax =
      round2 (taxLoop tax_brackets 0 (max 0 (inc - (sd + od)))) := by
    simp only [calculate_tax,
      if_neg (show ¬ (("Single" : String) = "Married Filing Jointly") by decide)]
  rw [hMFJ, hS]
  apply round2_mono
  rw [hMFJlist, hSlist,
    taxLoop_eq_talloc mfjFiniteBrackets (37 / 100) 0 _ hT hchainM,
    taxLoop_eq_talloc singleFiniteBrackets (37 / 100) 0 _ hT hchainS,
    hwidths, talloc_double]
  exact talloc_superadd _ _ _ hT hW hM

/-- C9 (counterexample): a successful status update also rewrites the row's
`updated_at` field, so a field other than the one named in the change is
modified: on a row last updated `2024-01-01`, updating the status at time
`2024-06-02` leaves `updated_at = 2024-06-02`. -/
theorem C9_counterexample :
    (update_backlog_status 0 7 "Completed" "2024-06-02" [sampleTask]).1 = true ∧
    (update_backlog_status 0 7 "Completed" "2024-06-02" [sampleTask]).2.map
        (fun t => t.updated_at) = ["2024-06-02"] ∧
    [sampleTask].map (fun t => t.updated_at) = ["2024-01-01"] ∧
    ("2024-06-02" : String) ≠ "2024-01-01" := by
  decide

/-- C9 (amended): after a successful status update by the owning user, the
targeted row carries the new status and the refreshed `updated_at` timestamp,
every other field of that row is preserved, and every other row of the table
is unchanged (the result is exactly `set i` of the original table). -/
theorem C9_status_update_frame (tbl : List BacklogTask) (i : ℕ) (uid : ℤ)
    (v now : String) (h : i < tbl.length)
    (hown : (tbl.get ⟨i, h⟩).user_id = uid) :
    update_backlog_status i uid v now tbl =
      (true, tbl.set i { tbl.get ⟨i, h⟩ with status := v, updated_at := now }) := by
  rw [update_backlog_status,
    if_neg (List.ne_nil_of_length_pos (lt_of_le_of_lt (Nat.zero_le i) h)),
    dif_pos h, if_pos hown]

/-- C9 (witness): the concrete status update of `sampleTask` by its owner
produces exactly the in-place `set` of the table. -/
theorem C9_status_update_frame_witness :
    update_backlog_status 0 7 "Completed" "2024-06-02" [sampleTask] =
      (true, ([sampleTask] : List BacklogTask).set 0
        { ([sampleTask] : List BacklogTask).get ⟨0, by decide⟩ with
            status := "Completed", updated_at := "2024-06-02" }) :=
  C9_status_update_frame [sampleTask] 0 7 "Completed" "2024-06-02"
    (by decide) (by decide)

/-- C10: registration checks username uniqueness case-insensitively — any
existing username equal up to lowercasing forces rejection with
"Username already exists" and an unchanged table — while login matches the
stored username case-sensitively: if no stored username equals the candidate
exactly, authentication returns no user and leaves the table unchanged. -/
theorem C10_register_insensitive_login_sensitive :
    (∀ (hash : String → String) (d : UserData) (now : String) (tbl : List User),
        (∃ u ∈ tbl, u.username.toLower = d.username.toLower) →
        register_user hash d now tbl = (false, some "Username already exists", tbl)) ∧
    (∀ (hash : String → String) (c pwd now : String) (tbl : List User),
        (∀ u ∈ tbl, u.username ≠ c) →
        authenticate_user hash c pwd now tbl = (none, tbl)) := by
  constructor
  · rintro hash d now tbl ⟨u, hu, heq⟩
    have hany : tbl.any (fun u => u.username.toLower == d.username.toLower) = true :=
      List.any_eq_true.2 ⟨u, hu, by simpa using heq⟩
    simp [register_user, hany]
  · intro hash c pwd now tbl hyp
    have hfilt : tbl.filter (fun u => u.username == c) = [] := by
      rw [List.filter_eq_nil_iff]
      intro u hu
      simpa using hyp u hu
    simp [authenticate_user, hfilt]

/-- C10 (witness): with the stored user `alice`, registering another `alice`
is rejected as a duplicate username, and authenticating as the unknown
username `bob` returns no user. -/
theorem C10_register_insensitive_login_sensitive_witness :
    register_user (fun s => s)
        { username := "alice", email := "x@example.com", password := "p",
          full_name := "" } "t3" [sampleUser] =
      (false, some "Username already exists", [sampleUser]) ∧
    authenticate_user (fun s => s) "bob" "pw" "t3" [sampleUser] =
      (none, [sampleUser]) :=
  ⟨C10_register_insensitive_login_sensitive.1 (fun s => s) _ "t3" [sampleUser]
      ⟨sampleUser, by decide, rfl⟩,
   C10_register_insensitive_login_sensitive.2 (fun s => s) "bob" "pw" "t3"
      [sampleUser] (by decide)⟩
